import Mathlib

/-!
Shallow embedding of the MultiPLAI workflow executor
(`packages/api/langgraph_service/src/multiplai/graph.py`) and the
error-handling paths of the execution node
(`packages/api/langgraph_service/src/multiplai/nodes/execute_issue.py`).

Modelling conventions:
* Python dictionaries are insertion-ordered association lists with unique
  keys; `setKey` mirrors `d[k] = v` (update in place, or append a new key
  at the end), `getKey?` mirrors `d.get(k)`, `eraseKey` mirrors
  `d.pop(k, None)`.
* `async` node functions are plain functions: the executor awaits every
  node result before proceeding, so a single run is strictly sequential.
* Uncaught Python exceptions (`KeyError` on node lookup, `ValueError` in
  `compile`) become `Except`-style error results.
* `copy.deepcopy` is the identity at the value level; the aliasing payoff
  of deep copies is modelled separately with an explicit one-level heap
  for the `MemorySaver` isolation claims.
* The executor loop (`while current != END`) is given explicit fuel; a
  `none` run result means the fuel ran out before the loop terminated.
-/

/-- Primitive Python values appearing in the MultiPLAI graph state. -/
inductive Prim where
  | str (s : String)
  | nat (n : Nat)
  | bool (b : Bool)
  | strList (xs : List String)
deriving DecidableEq

/-- Values stored in a graph state: primitives, or one level of nested
dictionary (every nested dictionary in the repository maps strings to
primitives). -/
inductive Val where
  | prim (p : Prim)
  | dict (entries : List (String × Prim))
deriving DecidableEq

/-- Shortcut for string values. -/
def Val.s (x : String) : Val := .prim (.str x)

/-- Shortcut for string-list values. -/
def Val.sl (xs : List String) : Val := .prim (.strList xs)

/-- Python `d.get(key)`: first entry with the given key, if any. -/
def getKey? {α : Type} : List (String × α) → String → Option α
  | [], _ => none
  | kv :: rest, key => if kv.1 = key then some kv.2 else getKey? rest key

/-- Python `d[key] = val` on an insertion-ordered dictionary: overwrite in
place when the key is present, otherwise append at the end. -/
def setKey {α : Type} : List (String × α) → String → α → List (String × α)
  | [], key, val => [(key, val)]
  | kv :: rest, key, val =>
      if kv.1 = key then (key, val) :: rest else kv :: setKey rest key val

/-- Python `d.pop(key, None)`: drop the entry with the given key. -/
def eraseKey {α : Type} : List (String × α) → String → List (String × α)
  | [], _ => []
  | kv :: rest, key =>
      if kv.1 = key then eraseKey rest key else kv :: eraseKey rest key

/-- The shared graph state (`multiplai.types.GraphState`), an open record. -/
abbrev GraphState := List (String × Val)

/-- A node's partial-update record (the dictionary a node returns). -/
abbrev GraphUpdate := List (String × Val)

/-- Terminal marker (`END = "__end__"` in `graph.py`). -/
def END : String := "__end__"

/-- Value-level view of `MemorySaver` as used by the executor: the store
maps a thread id to the most recent snapshot put under that id.  `put`
stores `copy.deepcopy(state)` and `get` returns `copy.deepcopy` of the
stored snapshot; at the value level both deep copies are the identity
(the aliasing content of the deep copies is modelled separately by the
heap-based `MemorySaver` below). -/
structure Checkpointer where
  _store : List (String × GraphState)
deriving DecidableEq

/-- `MemorySaver.put`: store a (deep copy of the) snapshot under the id,
overwriting any previous snapshot for the same id. -/
def Checkpointer.put (m : Checkpointer) (thread_id : String) (state : GraphState) :
    Checkpointer :=
  ⟨setKey m._store thread_id state⟩

/-- `MemorySaver.get`: the stored snapshot for the id, if any. -/
def Checkpointer.get (m : Checkpointer) (thread_id : String) : Option GraphState :=
  getKey? m._store thread_id

/-- The snapshots retrievable through `get` for a thread id (the store
interface returns at most one snapshot per id). -/
def Checkpointer.retrievable (m : Checkpointer) (thread_id : String) :
    List GraphState :=
  match m.get thread_id with
  | some s => [s]
  | none => []

/-- A node function: receives the (mutable) working state, may mutate it
in place (e.g. `_append_trace`), and returns an optional partial-update
record (`None` is modelled by `none`).  The pair is (state after the
node's own in-place mutations, returned record). -/
def NodeFn : Type := GraphState → GraphState × Option GraphUpdate

/-- Failure of a run: `self.nodes[current]` raises `KeyError` when the
current node name is not registered; this is the run-time configuration
error of the executor. -/
inductive RunErr where
  | missingNode (name : String)
deriving DecidableEq

/-- Everything observable about one run of the execution loop: the result
(`none` when the fuel ran out before the loop terminated), the node names
invoked in order, the snapshots put to the checkpoint store in order, and
the final checkpoint store. -/
structure RunOutcome where
  result : Option (Except RunErr GraphState)
  invoked : List String
  puts : List GraphState
  saver : Checkpointer

/-- The final state returned by `ainvoke`, when the run completed
normally. -/
def RunOutcome.finalState (o : RunOutcome) : Option GraphState :=
  match o.result with
  | some (.ok s) => some s
  | _ => none

/-- The error the run raised, if any. -/
def RunOutcome.runError (o : RunOutcome) : Option RunErr :=
  match o.result with
  | some (.error e) => some e
  | _ => none

/-- Whether the loop terminated within the given fuel. -/
def RunOutcome.completed (o : RunOutcome) : Bool :=
  o.result.isSome

/-- The `config` argument of `ainvoke`: an optional nested
`configurable.thread_id` and an optional top-level `thread_id`. -/
structure Config where
  configurable_thread_id : Option String
  thread_id : Option String

/-- Python `a or b` for an optional string `a`: an absent or empty (falsy)
string falls through to `b`. -/
def orFalsy (a : Option String) (b : String) : String :=
  match a with
  | none => b
  | some s => if s = "" then b else s

/-- Thread-id extraction in `ainvoke`:
`config.get("configurable", {}).get("thread_id") or config.get("thread_id") or "default"`. -/
def threadIdOf : Option Config → String
  | none => "default"
  | some c => orFalsy c.configurable_thread_id (orFalsy c.thread_id "default")

/-- One merge of a node's partial-update record into the working state:
`for key, value in result.items(): working_state[key] = value`. -/
def mergeUpdate (state : GraphState) (update : GraphUpdate) : GraphState :=
  update.foldl (fun acc kv => setKey acc kv.1 kv.2) state

/-- Processing of a node's returned value by the loop body: only
`if result:` is truthy — neither `None` nor an empty record — is the
partial update merged into the working state. -/
def processResult (result : Option GraphUpdate) (ws : GraphState) : GraphState :=
  match result with
  | none => ws
  | some upd => if upd = [] then ws else mergeUpdate ws upd

/-- The working state after a node ran and its result was processed by the
loop body: the node's in-place mutations, then the merge of its returned
record. -/
def stepState (node : NodeFn) (ws : GraphState) : GraphState :=
  let (ws1, result) := node ws
  processResult result ws1

/-- The `while current != END` loop of `_CompiledGraph.ainvoke`, with
explicit fuel.  Accumulates the invoked node names and the snapshots put
to the checkpoint store. -/
def runLoop (nodes : List (String × NodeFn)) (edges : List (String × String))
    (thread_id : String) :
    Nat → String → GraphState → Checkpointer → List String → List GraphState →
    RunOutcome
  | 0, current, ws, cp, inv, puts =>
      if current = END then ⟨some (.ok ws), inv, puts, cp⟩ else ⟨none, inv, puts, cp⟩
  | fuel + 1, current, ws, cp, inv, puts =>
      if current = END then ⟨some (.ok ws), inv, puts, cp⟩
      else
        match getKey? nodes current with
        | none => ⟨some (.error (.missingNode current)), inv, puts, cp⟩
        | some node =>
            let ws2 := stepState node ws
            let cp2 := cp.put thread_id ws2
            let next := (getKey? edges current).getD END
            runLoop nodes edges thread_id fuel next ws2 cp2 (inv ++ [current])
              (puts ++ [ws2])

/-- `_CompiledGraph`: frozen node map, edge map, entry point, and the
checkpoint store supplied at compile time (`@dataclass(frozen=True)`). -/
structure CompiledGraph where
  nodes : List (String × NodeFn)
  edges : List (String × String)
  entry_point : String
  checkpointer : Checkpointer

/-- `_CompiledGraph.ainvoke`: resolve the thread id, deep-copy the initial
state into the working state, put the pre-run checkpoint, then run the
loop. -/
def CompiledGraph.ainvoke (g : CompiledGraph) (fuel : Nat) (state : GraphState)
    (config : Option Config) : RunOutcome :=
  let thread_id := threadIdOf config
  let working_state := state
  let cp1 := g.checkpointer.put thread_id working_state
  runLoop g.nodes g.edges thread_id fuel g.entry_point working_state cp1 []
    [working_state]

/-- `StateGraph`: the mutable builder (the `state_schema` constructor
argument is never consulted and is omitted). -/
structure StateGraph where
  _nodes : List (String × NodeFn)
  _edges : List (String × String)
  _entry_point : Option String

/-- A fresh builder (`StateGraph.__init__`). -/
def StateGraph.empty : StateGraph := ⟨[], [], none⟩

/-- `add_node`: register (or silently replace) a node under a name. -/
def StateGraph.add_node (b : StateGraph) (name : String) (fn : NodeFn) : StateGraph :=
  { b with _nodes := setKey b._nodes name fn }

/-- `set_entry_point`. -/
def StateGraph.set_entry_point (b : StateGraph) (name : String) : StateGraph :=
  { b with _entry_point := some name }

/-- `add_edge`: record (or silently replace) the single outgoing edge. -/
def StateGraph.add_edge (b : StateGraph) (source dest : String) : StateGraph :=
  { b with _edges := setKey b._edges source dest }

/-- `compile`: `if not self._entry_point: raise ValueError(...)` — an
unset **or empty** entry point is falsy and raises; otherwise the compiled
graph captures copies (`dict(...)`) of the node and edge maps, the entry
point, and the supplied checkpoint store. -/
def StateGraph.compile (b : StateGraph) (checkpointer : Checkpointer) :
    Except String CompiledGraph :=
  match b._entry_point with
  | none => .error "Entry point must be set before compiling"
  | some e =>
      if e = "" then .error "Entry point must be set before compiling"
      else .ok ⟨b._nodes, b._edges, e, checkpointer⟩

/-- Whether `compile` raised. -/
def compileFailed (r : Except String CompiledGraph) : Bool :=
  match r with
  | .error _ => true
  | .ok _ => false

/-- `_append_trace(state, node_name)`: in-place, `state.get("trace")`;
when absent, install an empty list under `"trace"`; then append the node
name.  A `"trace"` value that is not a list raises `AttributeError` in
Python and never occurs in this workflow; the model leaves such a state
unchanged (that branch is outside the modelled domain). -/
def _append_trace (state : GraphState) (node_name : String) : GraphState :=
  match getKey? state "trace" with
  | none => setKey state "trace" (Val.sl [node_name])
  | some (Val.prim (Prim.strList xs)) =>
      setKey state "trace" (Val.sl (xs ++ [node_name]))
  | some _ => state

/-- `graph.load_context` (the module-local pipeline node in `graph.py`). -/
def load_context : NodeFn := fun state =>
  (_append_trace state "load_context",
   some [("status", Val.s "context_loaded"),
         ("context", Val.dict [("loaded", Prim.bool true)])])

/-- `graph.plan_issue` (the module-local pipeline node in `graph.py`). -/
def plan_issue : NodeFn := fun state =>
  (_append_trace state "plan_issue",
   some [("status", Val.s "planned"),
         ("plan", Val.dict
            [("steps", Prim.strList ["execute", "create_pr"]),
             ("definition_of_done", Prim.strList []),
             ("target_files", Prim.strList []),
             ("estimated_complexity", Prim.str "low")])])

/-- `graph.execute_issue` (the module-local pipeline node in `graph.py`). -/
def execute_issue : NodeFn := fun state =>
  (_append_trace state "execute_issue",
   some [("status", Val.s "executed"),
         ("execution_result", Val.dict [("ok", Prim.bool true)])])

/-- `graph.create_pr` (the module-local pipeline node in `graph.py`):
sets `status` to `"pr_ready"` and a non-empty `pr_url`. -/
def create_pr : NodeFn := fun state =>
  (_append_trace state "create_pr",
   some [("status", Val.s "pr_ready"),
         ("pr_url", Val.s "https://example.local/pr/1")])

/-- `graph.should_continue` (unused by the linear workflow). -/
def should_continue (state : GraphState) : String :=
  if getKey? state "status" = some (Val.s "pr_ready") then END else "create_pr"

/-- `build_graph()`: the four-node linear pipeline, compiled with a fresh
`MemorySaver`. -/
def build_graph : Except String CompiledGraph :=
  (((((((((StateGraph.empty.add_node "load_context" load_context).add_node
      "plan_issue" plan_issue).add_node "execute_issue" execute_issue).add_node
      "create_pr" create_pr).set_entry_point "load_context").add_edge
      "load_context" "plan_issue").add_edge "plan_issue" "execute_issue").add_edge
      "execute_issue" "create_pr").add_edge "create_pr" END).compile ⟨[]⟩

/-- The module-level `graph = build_graph()` object. -/
def graph : CompiledGraph :=
  match build_graph with
  | .ok g => g
  | .error _ => ⟨[], [], END, ⟨[]⟩⟩

/-- `nodes/load_context.py`'s `load_context`: copies the state
(`GraphState(**state)`), sets `status` to `"context_loaded"`, and pops any
previous `error` from the record it returns. -/
def load_context_node (state : GraphState) : GraphState :=
  eraseKey (setKey state "status" (Val.s "context_loaded")) "error"

/-- Result of Python `open(path).read()`: content, `FileNotFoundError`, or
another I/O exception with a message. -/
inductive ReadResult where
  | ok (content : String)
  | notFound
  | ioError (msg : String)
deriving DecidableEq

/-- Python truthiness of a state value (`if not target_files`). -/
def valFalsy : Val → Bool
  | .prim (.str s) => s == ""
  | .prim (.nat n) => n == 0
  | .prim (.bool b) => !b
  | .prim (.strList xs) => xs.isEmpty
  | .dict entries => entries.isEmpty

/-- The `error_state` construction of `nodes/execute_issue.py`:
`GraphState(**state)` (a copy of every field), then `status = "error"`,
then `error = msg`. -/
def errorWith (state : GraphState) (msg : String) : GraphState :=
  setKey (setKey state "status" (Val.s "error")) "error" (Val.s msg)

/-- The file-reading loop of `execute_issue`: reads each target file in
order, failing fast with the exception's formatted message on the first
file that cannot be read. -/
def readTargetFiles (readFile : String → ReadResult) :
    List String → List (String × String) → Except String (List (String × String))
  | [], acc => .ok acc
  | p :: ps, acc =>
      match readFile p with
      | .ok content => readTargetFiles readFile ps (acc ++ [(p, content)])
      | .notFound => .error ("File not found: " ++ p)
      | .ioError e => .error ("Error reading file " ++ p ++ ": " ++ e)

/-- Markdown code-fence stripping applied to the generated diff text. -/
def stripFence (s : String) : String :=
  let s1 :=
    if s.startsWith "```diff" then s.drop 7
    else if s.startsWith "```" then s.drop 3
    else s
  let s2 := if s1.endsWith "```" then s1.dropRight 3 else s1
  s2.trim

/-- `nodes/execute_issue.py`'s `execute_issue`.  The filesystem
(`readFile`) and the LLM diff-producing capability (`genDiff`, whose
`.error` carries a raised exception's message) are opaque parameters.  A
truthy non-list `target_files` value would raise `TypeError` when
iterated in Python; that branch is outside the typed domain
(`target_files : List[str]`) and is modelled as returning the state
unchanged. -/
def execute_issue_node (readFile : String → ReadResult)
    (genDiff : Option Val → List (String × String) → Except String String)
    (state : GraphState) : GraphState :=
  let plan := getKey? state "plan"
  match getKey? state "target_files" with
  | none => errorWith state "No target_files specified; unable to execute issue."
  | some v =>
      if valFalsy v then
        errorWith state "No target_files specified; unable to execute issue."
      else
        match v with
        | Val.prim (Prim.strList target_files) =>
            match readTargetFiles readFile target_files [] with
            | .error msg => errorWith state msg
            | .ok file_contents =>
                match genDiff plan file_contents with
                | .error e => errorWith state ("Error generating patch: " ++ e)
                | .ok text =>
                    setKey (setKey state "diff" (Val.s (stripFence text)))
                      "status" (Val.s "executed")
        | _ => state

/-- A one-level heap of mutable Python dict objects: each address holds a
graph state whose field values are pure.  One level of indirection is
enough to express the deep-copy isolation claims: `copy.deepcopy` makes
the stored snapshot behave as a detached value. -/
structure Heap where
  data : List GraphState
deriving DecidableEq

/-- Dereference an address (out-of-range reads never occur in the claims
and default to the empty record). -/
def Heap.read (h : Heap) (a : Nat) : GraphState := h.data.getD a []

/-- In-place mutation of the object at an address (`state[k] = v`,
`state.pop(k)`, … performed by a caller holding a reference). -/
def Heap.write (h : Heap) (a : Nat) (s : GraphState) : Heap :=
  ⟨h.data.set a s⟩

/-- Allocate a fresh object: `copy.deepcopy` places the copy at a fresh
address disjoint from every existing reference. -/
def Heap.alloc (h : Heap) (s : GraphState) : Heap × Nat :=
  (⟨h.data ++ [s]⟩, h.data.length)

/-- `MemorySaver`: the in-memory checkpointer, with its internal dict
mapping thread ids to (addresses of) stored snapshots. -/
structure MemorySaver where
  _store : List (String × Nat)
deriving DecidableEq

/-- `MemorySaver.put(thread_id, state)`: store `copy.deepcopy(state)` —
a fresh object with the same content. -/
def MemorySaver.put (m : MemorySaver) (h : Heap) (thread_id : String) (a : Nat) :
    MemorySaver × Heap :=
  let copied := h.alloc (h.read a)
  (⟨setKey m._store thread_id copied.2⟩, copied.1)

/-- `MemorySaver.get(thread_id)`: `copy.deepcopy` of the stored snapshot
(a fresh object), or `None` when the id is unknown. -/
def MemorySaver.get (m : MemorySaver) (h : Heap) (thread_id : String) :
    Option Nat × Heap :=
  match getKey? m._store thread_id with
  | none => (none, h)
  | some a =>
      let copied := h.alloc (h.read a)
      (some copied.2, copied.1)

/-- The content `get` hands back to the caller (dereferencing the snapshot
it returns). -/
def MemorySaver.getContent (m : MemorySaver) (h : Heap) (thread_id : String) :
    Option GraphState :=
  match m.get h thread_id with
  | (some a, h2) => some (h2.read a)
  | (none, _) => none

/-- The initial state of the repository's happy-path run
(`{"status": "new", "trace": []}`). -/
def initialState : GraphState := [("status", Val.s "new"), ("trace", Val.sl [])]

/-- A one-step compiled graph used to exhibit checkpoint-store behaviour:
a single node `"a"` (no outgoing edge, so its successor defaults to the
terminal marker). -/
def demoNode : NodeFn := fun s => (s, some [("x", Val.prim (Prim.nat 1))])

/-- The one-step graph, compiled from a builder with a fresh store. -/
def demoGraph : CompiledGraph :=
  match ((StateGraph.empty.add_node "a" demoNode).set_entry_point "a").compile ⟨[]⟩ with
  | .ok g => g
  | .error _ => ⟨[], [], END, ⟨[]⟩⟩

/-- Field lookup on the final state of a completed run. -/
def RunOutcome.finalGet (o : RunOutcome) (k : String) : Option Val :=
  match o.finalState with
  | some st => getKey? st k
  | none => none

/-- An initial state carrying a stale `error` field from a prior step. -/
def staleErrorState : GraphState :=
  [("status", Val.s "new"), ("trace", Val.sl []), ("error", Val.s "stale")]

/-- A tiny filesystem for witnesses: a single readable file `"a.txt"`. -/
def demoFS : String → ReadResult := fun p =>
  if p = "a.txt" then .ok "file content" else .notFound

/-- An always-succeeding diff-producing capability for witnesses. -/
def demoDiff : Option Val → List (String × String) → Except String String :=
  fun _ _ => .ok "--- a\n+++ b\n"

/-- Value-isolation contract of `MemorySaver` for a caller who stored the
object at address `a` under thread id `t`: `get` returns a fresh copy
with the stored content; later in-place mutations of the caller's object
or of a returned snapshot never change what `get` subsequently returns;
and two consecutive `get` calls return independent (distinct-address)
copies of equal content. -/
def IsolationSpec (m : MemorySaver) (h : Heap) (t : String) (a : Nat) : Prop :=
  let s0 := h.read a
  let m1 := (m.put h t a).1
  let h1 := (m.put h t a).2
  (m1.getContent h1 t = some s0) ∧
  (∀ a1, (m1.get h1 t).1 = some a1 → a1 ≠ a) ∧
  (∀ v : GraphState, m1.getContent (h1.write a v) t = some s0) ∧
  (∀ a1, (m1.get h1 t).1 = some a1 →
    ∀ v : GraphState, m1.getContent ((m1.get h1 t).2.write a1 v) t = some s0) ∧
  (m1.getContent (m1.get h1 t).2 t = some s0) ∧
  (∀ a1 a2, (m1.get h1 t).1 = some a1 →
    (m1.get (m1.get h1 t).2 t).1 = some a2 → a1 ≠ a2)

theorem getKey?_setKey_self {α : Type} (l : List (String × α)) (k : String) (v : α) :
    getKey? (setKey l k v) k = some v := by
  induction l with
  | nil => simp [setKey, getKey?]
  | cons kv rest ih =>
      by_cases h : kv.1 = k
      · simp [setKey, h, getKey?]
      · simp [setKey, h, getKey?, ih]

theorem getKey?_setKey_ne {α : Type} (l : List (String × α)) (k k' : String) (v : α)
    (h : k' ≠ k) : getKey? (setKey l k v) k' = getKey? l k' := by
  induction l with
  | nil => simp [setKey, getKey?, Ne.symm h]
  | cons kv rest ih =>
      by_cases hk : kv.1 = k
      · subst hk
        simp [setKey, getKey?, Ne.symm h]
      · simp [setKey, hk, getKey?, ih]

theorem getKey?_eraseKey_self {α : Type} (l : List (String × α)) (k : String) :
    getKey? (eraseKey l k) k = none := by
  induction l with
  | nil => simp [eraseKey, getKey?]
  | cons kv rest ih =>
      by_cases h : kv.1 = k
      · simp [eraseKey, h, ih]
      · simp [eraseKey, h, getKey?, ih]

theorem getKey?_eraseKey_ne {α : Type} (l : List (String × α)) (k k' : String)
    (h : k' ≠ k) : getKey? (eraseKey l k) k' = getKey? l k' := by
  induction l with
  | nil => simp [eraseKey]
  | cons kv rest ih =>
      by_cases hk : kv.1 = k
      · subst hk
        simp [eraseKey, getKey?, Ne.symm h, ih]
      · simp [eraseKey, hk, getKey?, ih]

theorem Heap.read_alloc_self (h : Heap) (s : GraphState) :
    (h.alloc s).1.read (h.alloc s).2 = s := by
  rw [Heap.alloc, Heap.read, List.getD, List.get?_eq_getElem?,
    List.getElem?_append, if_neg (lt_irrefl _)]
  simp

theorem Heap.read_alloc_lt (h : Heap) (s : GraphState) (a : Nat)
    (ha : a < h.data.length) : (h.alloc s).1.read a = h.read a := by
  rw [Heap.alloc, Heap.read, Heap.read, List.getD, List.getD,
    List.get?_eq_getElem?, List.get?_eq_getElem?, List.getElem?_append, if_pos ha]

theorem Heap.read_write_ne (h : Heap) (a b : Nat) (s : GraphState)
    (hab : a ≠ b) : (h.write a s).read b = h.read b := by
  rw [Heap.write, Heap.read, Heap.read, List.getD, List.getD,
    List.get?_eq_getElem?, List.get?_eq_getElem?, List.getElem?_set_ne hab]

theorem Heap.alloc_length (h : Heap) (s : GraphState) :
    (h.alloc s).1.data.length = h.data.length + 1 := by
  simp [Heap.alloc]

theorem Heap.write_length (h : Heap) (a : Nat) (s : GraphState) :
    (h.write a s).data.length = h.data.length := by
  simp [Heap.write]

theorem getKey?_eq_none_of_not_mem {α : Type} (l : List (String × α)) (k : String)
    (h : k ∉ l.map Prod.fst) : getKey? l k = none := by
  induction l with
  | nil => rfl
  | cons kv rest ih =>
      simp only [List.map_cons, List.mem_cons] at h
      push_neg at h
      simp [getKey?, Ne.symm h.1, ih h.2]

theorem mergeUpdate_cons (s : GraphState) (kv : String × Val) (rest : GraphUpdate) :
    mergeUpdate s (kv :: rest) = mergeUpdate (setKey s kv.1 kv.2) rest := rfl

theorem getKey?_mergeUpdate_of_none (s : GraphState) (u : GraphUpdate) (k : String)
    (h : getKey? u k = none) : getKey? (mergeUpdate s u) k = getKey? s k := by
  induction u generalizing s with
  | nil => rfl
  | cons kv rest ih =>
      rw [getKey?] at h
      by_cases hk : kv.1 = k
      · simp [hk] at h
      · rw [if_neg hk] at h
        rw [mergeUpdate_cons, ih _ h, getKey?_setKey_ne _ _ _ _ (Ne.symm hk)]

theorem getKey?_mergeUpdate_of_some (s : GraphState) (u : GraphUpdate) (k : String)
    (v : Val) (hnd : (u.map Prod.fst).Nodup) (h : getKey? u k = some v) :
    getKey? (mergeUpdate s u) k = some v := by
  induction u generalizing s with
  | nil => simp [getKey?] at h
  | cons kv rest ih =>
      simp only [List.map_cons, List.nodup_cons] at hnd
      rw [getKey?] at h
      by_cases hk : kv.1 = k
      · rw [if_pos hk] at h
        obtain rfl : kv.2 = v := by injection h
        have hnone : getKey? rest k = none := by
          apply getKey?_eq_none_of_not_mem
          rw [← hk]
          exact hnd.1
        rw [mergeUpdate_cons, getKey?_mergeUpdate_of_none _ _ _ hnone, hk,
          getKey?_setKey_self]
      · rw [if_neg hk] at h
        rw [mergeUpdate_cons]
        exact ih _ hnd.2 h

theorem isSome_getKey?_setKey (s : GraphState) (k k' : String) (v : Val)
    (h : (getKey? s k).isSome) : (getKey? (setKey s k' v) k).isSome := by
  by_cases hk : k = k'
  · subst hk
    rw [getKey?_setKey_self]
    rfl
  · rw [getKey?_setKey_ne _ _ _ _ hk]
    exact h

theorem isSome_getKey?_mergeUpdate (s : GraphState) (u : GraphUpdate) (k : String)
    (h : (getKey? s k).isSome) : (getKey? (mergeUpdate s u) k).isSome := by
  induction u generalizing s with
  | nil => exact h
  | cons kv rest ih =>
      rw [mergeUpdate_cons]
      exact ih _ (isSome_getKey?_setKey _ _ _ _ h)

theorem Checkpointer.get_put_self (m : Checkpointer) (t : String) (s : GraphState) :
    (m.put t s).get t = some s :=
  getKey?_setKey_self m._store t s

theorem runLoop_spec (nodes : List (String × NodeFn)) (edges : List (String × String))
    (t : String) :
    ∀ (fuel : Nat) (current : String) (ws : GraphState) (cp : Checkpointer)
      (inv : List String) (puts : List GraphState),
      cp.get t = some ws → puts.getLast? = some ws →
      (runLoop nodes edges t fuel current ws cp inv puts).result.isSome →
      ∃ extI extP,
        (runLoop nodes edges t fuel current ws cp inv puts).invoked = inv ++ extI ∧
        (runLoop nodes edges t fuel current ws cp inv puts).puts = puts ++ extP ∧
        extP.length = extI.length ∧
        (runLoop nodes edges t fuel current ws cp inv puts).saver.get t =
          (runLoop nodes edges t fuel current ws cp inv puts).puts.getLast? ∧
        (∀ w, (runLoop nodes edges t fuel current ws cp inv puts).result =
            some (.ok w) →
          (runLoop nodes edges t fuel current ws cp inv puts).puts.getLast? = some w) := by
  intro fuel
  induction fuel with
  | zero =>
      intro current ws cp inv puts hcp hlast hdone
      by_cases hend : current = END
      · refine ⟨[], [], ?_, ?_, rfl, ?_, ?_⟩ <;>
          simp only [runLoop, if_pos hend, List.append_nil]
        · rw [hcp, hlast]
        · intro w hw
          injection hw with hw
          injection hw with hw
          rw [← hw]
          exact hlast
      · simp only [runLoop, if_neg hend, Option.isSome_none] at hdone
        exact absurd hdone (by simp)
  | succ fuel ih =>
      intro current ws cp inv puts hcp hlast hdone
      by_cases hend : current = END
      · refine ⟨[], [], ?_, ?_, rfl, ?_, ?_⟩ <;>
          simp only [runLoop, if_pos hend, List.append_nil]
        · rw [hcp, hlast]
        · intro w hw
          injection hw with hw
          injection hw with hw
          rw [← hw]
          exact hlast
      · rcases hnode : getKey? nodes current with _ | node
        · refine ⟨[], [], ?_, ?_, rfl, ?_, ?_⟩ <;>
            simp only [runLoop, if_neg hend, hnode, List.append_nil]
          · rw [hcp, hlast]
          · intro w hw
            injection hw with hw
            exact absurd hw (by simp)
        · have hrec :
              runLoop nodes edges t (fuel + 1) current ws cp inv puts =
              runLoop nodes edges t fuel ((getKey? edges current).getD END)
                (stepState node ws) (cp.put t (stepState node ws))
                (inv ++ [current]) (puts ++ [stepState node ws]) := by
            simp only [runLoop, if_neg hend, hnode]
          rw [hrec] at hdone ⊢
          obtain ⟨extI, extP, h1, h2, h3, h4, h5⟩ :=
            ih ((getKey? edges current).getD END) (stepState node ws)
              (cp.put t (stepState node ws)) (inv ++ [current])
              (puts ++ [stepState node ws])
              (Checkpointer.get_put_self _ _ _) (List.getLast?_concat _) hdone
          refine ⟨[current] ++ extI, [stepState node ws] ++ extP, ?_, ?_, ?_, h4, h5⟩
          · rw [h1, List.append_assoc]
          · rw [h2, List.append_assoc]
          · simp [h3]

/-- C1 (counterexample): after a completed run of one node step under the
default thread id, only one checkpoint — not `1 + 1 = 2` — is retrievable
from the store by that thread id, because `put` overwrites the previous
snapshot for the same id. -/
theorem C1_counterexample :
    (demoGraph.ainvoke 5 [] none).result.isSome = true ∧
    (demoGraph.ainvoke 5 [] none).invoked.length = 1 ∧
    ((demoGraph.ainvoke 5 [] none).saver.retrievable "default").length = 1 ∧
    ((demoGraph.ainvoke 5 [] none).saver.retrievable "default").length ≠
      (demoGraph.ainvoke 5 [] none).invoked.length + 1 := by
  decide

/-- C1 (amended): a completed run that executed `n` node steps performed
exactly `n + 1` checkpoint writes under its thread id, in execution
order — the pre-run snapshot of the initial state first, the final
working state last — but the store retains only the most recent write, so
after the run exactly that final snapshot is retrievable by the thread
id. -/
theorem C1_checkpointing (g : CompiledGraph) (fuel : Nat) (s : GraphState)
    (cfg : Option Config)
    (hdone : (g.ainvoke fuel s cfg).result.isSome = true) :
    (g.ainvoke fuel s cfg).puts.length = (g.ainvoke fuel s cfg).invoked.length + 1 ∧
    (g.ainvoke fuel s cfg).puts.head? = some s ∧
    (g.ainvoke fuel s cfg).saver.get (threadIdOf cfg) =
      (g.ainvoke fuel s cfg).puts.getLast? ∧
    (g.ainvoke fuel s cfg).saver.retrievable (threadIdOf cfg) =
      ((g.ainvoke fuel s cfg).puts.getLast?).toList ∧
    (∀ w, (g.ainvoke fuel s cfg).finalState = some w →
      (g.ainvoke fuel s cfg).puts.getLast? = some w) := by
  simp only [CompiledGraph.ainvoke] at hdone ⊢
  obtain ⟨extI, extP, h1, h2, h3, h4, h5⟩ :=
    runLoop_spec g.nodes g.edges (threadIdOf cfg) fuel g.entry_point s
      (g.checkpointer.put (threadIdOf cfg) s) [] [s]
      (Checkpointer.get_put_self _ _ _) rfl hdone
  refine ⟨?_, ?_, h4, ?_, ?_⟩
  · rw [h1, h2]
    simp [h3]
  · rw [h2]
    rfl
  · rw [Checkpointer.retrievable, h4]
    cases hlast :
        (runLoop g.nodes g.edges (threadIdOf cfg) fuel g.entry_point s
          (g.checkpointer.put (threadIdOf cfg) s) [] [s]).puts.getLast? <;>
      simp [hlast]
  · intro w hw
    apply h5
    rw [RunOutcome.finalState] at hw
    rcases hres :
        (runLoop g.nodes g.edges (threadIdOf cfg) fuel g.entry_point s
          (g.checkpointer.put (threadIdOf cfg) s) [] [s]).result with _ | r
    · rw [hres] at hw
      exact absurd hw (by simp)
    · rw [hres] at hw
      cases r with
      | error e => exact absurd hw (by simp)
      | ok v =>
          simp only [Option.some.injEq] at hw
          rw [hw]

/-- C1 (witness): the repository's happy-path pipeline run completes, and
the amended counting facts hold for it concretely. -/
theorem C1_witness :
    (graph.ainvoke 10 initialState none).result.isSome = true ∧
    (graph.ainvoke 10 initialState none).puts.length =
      (graph.ainvoke 10 initialState none).invoked.length + 1 := by
  refine ⟨by decide, ?_⟩
  exact (C1_checkpointing graph 10 initialState none (by decide)).1

/-- C2 (counterexample): the four-node pipeline built by `build_graph`,
run with initial state `{status: "new", trace: []}`, completes with final
`status` equal to `"pr_ready"` — not `"pr_created"` as claimed (the
repository's own test asserts `"pr_ready"`). -/
theorem C2_counterexample :
    (graph.ainvoke 10 initialState none).finalGet "status" = some (Val.s "pr_ready") ∧
    (graph.ainvoke 10 initialState none).finalGet "status" ≠
      some (Val.s "pr_created") := by
  decide

/-- C2 (amended): running the pipeline built by `build_graph` with initial
state `{status: "new", trace: []}` returns a final state with `status`
equal to `"pr_ready"`, `trace` equal to
`["load_context", "plan_issue", "execute_issue", "create_pr"]`, and a
non-empty `pr_url`. -/
theorem C2_pipeline_run :
    (graph.ainvoke 10 initialState none).finalGet "status" = some (Val.s "pr_ready") ∧
    (graph.ainvoke 10 initialState none).finalGet "trace" =
      some (Val.sl ["load_context", "plan_issue", "execute_issue", "create_pr"]) ∧
    (graph.ainvoke 10 initialState none).finalGet "pr_url" =
      some (Val.s "https://example.local/pr/1") ∧
    "https://example.local/pr/1" ≠ "" := by
  decide

/-- C3 (counterexample): a builder whose entry point **was** set — to the
empty string — still fails to compile, because `if not self._entry_point`
treats the empty string as falsy; so "fails exactly when no entry point
was set" is not what the code does. -/
theorem C3_counterexample :
    ((StateGraph.empty.set_entry_point "")._entry_point).isSome = true ∧
    compileFailed ((StateGraph.empty.set_entry_point "").compile ⟨[]⟩) = true := by
  decide

/-- C3 (amended): `compile(checkpoint_store)` fails when the entry point
is unset **or set to the empty string**; otherwise it returns a compiled
graph capturing (copies of, by the pure-value semantics of the embedding)
the builder's node map and edge map, the entry point, and the supplied
checkpoint store — so no later mutation of the builder can affect the
compiled value. -/
theorem C3_compile (b : StateGraph) (cp : Checkpointer) :
    (b._entry_point = none →
      b.compile cp = .error "Entry point must be set before compiling") ∧
    (b._entry_point = some "" →
      b.compile cp = .error "Entry point must be set before compiling") ∧
    (∀ e, b._entry_point = some e → e ≠ "" →
      b.compile cp = .ok ⟨b._nodes, b._edges, e, cp⟩) := by
  refine ⟨?_, ?_, ?_⟩
  · intro h
    simp [StateGraph.compile, h]
  · intro h
    simp [StateGraph.compile, h]
  · intro e he hne
    simp [StateGraph.compile, he, hne]

/-- C3 (witness): a fresh builder fails to compile; after
`set_entry_point "x"` it compiles to exactly the frozen tuple of its
fields and the supplied store. -/
theorem C3_witness :
    StateGraph.empty._entry_point = none ∧
    StateGraph.empty.compile ⟨[]⟩ =
      .error "Entry point must be set before compiling" ∧
    (StateGraph.empty.set_entry_point "x").compile ⟨[]⟩ =
      .ok ⟨[], [], "x", ⟨[]⟩⟩ :=
  ⟨rfl, (C3_compile StateGraph.empty ⟨[]⟩).1 rfl,
    (C3_compile (StateGraph.empty.set_entry_point "x") ⟨[]⟩).2.2 "x" rfl (by decide)⟩

/-- C4: merging a node's non-empty partial-update record `u` (a Python
dict, so its keys are distinct) into the working state `s` maps every key
of `u` to `u`'s value (overwrite or insert) and leaves every key absent
from `u` at its value in `s`. -/
theorem C4_merge (s : GraphState) (u : GraphUpdate) (_hne : u ≠ [])
    (hnd : (u.map Prod.fst).Nodup) :
    (∀ k v, getKey? u k = some v → getKey? (mergeUpdate s u) k = some v) ∧
    (∀ k, getKey? u k = none → getKey? (mergeUpdate s u) k = getKey? s k) :=
  ⟨fun k v h => getKey?_mergeUpdate_of_some s u k v hnd h,
   fun k h => getKey?_mergeUpdate_of_none s u k h⟩

/-- C4 (witness): merging `{b: 2}` into `{a: 1}` gives `{a: 1, b: 2}`, and
merging `{a: 3}` into `{a: 1}` gives `{a: 3}` (overwrite, not
duplicate). -/
theorem C4_witness :
    ([("b", Val.prim (Prim.nat 2))] ≠ ([] : GraphUpdate)) ∧
    getKey? (mergeUpdate [("a", Val.prim (Prim.nat 1))]
      [("b", Val.prim (Prim.nat 2))]) "a" = some (Val.prim (Prim.nat 1)) ∧
    getKey? (mergeUpdate [("a", Val.prim (Prim.nat 1))]
      [("b", Val.prim (Prim.nat 2))]) "b" = some (Val.prim (Prim.nat 2)) ∧
    getKey? (mergeUpdate [("a", Val.prim (Prim.nat 1))]
      [("a", Val.prim (Prim.nat 3))]) "a" = some (Val.prim (Prim.nat 3)) ∧
    mergeUpdate [("a", Val.prim (Prim.nat 1))] [("a", Val.prim (Prim.nat 3))] =
      [("a", Val.prim (Prim.nat 3))] := by
  refine ⟨by decide, ?_, ?_, ?_, by decide⟩
  · exact (C4_merge [("a", Val.prim (Prim.nat 1))] [("b", Val.prim (Prim.nat 2))]
      (by decide) (by decide)).2 "a" (by decide)
  · exact (C4_merge [("a", Val.prim (Prim.nat 1))] [("b", Val.prim (Prim.nat 2))]
      (by decide) (by decide)).1 "b" (Val.prim (Prim.nat 2)) (by decide)
  · exact (C4_merge [("a", Val.prim (Prim.nat 1))] [("a", Val.prim (Prim.nat 3))]
      (by decide) (by decide)).1 "a" (Val.prim (Prim.nat 3)) (by decide)

/-- C9: the key set of the working state only grows across the loop body's
result processing: every key present before a node's returned record is
merged is still present (possibly with a new value) afterwards, for every
returned value — the merge only assigns keys listed in the record and has
no deletion path. -/
theorem C9_keys_monotone (ws : GraphState) (result : Option GraphUpdate)
    (k : String) (h : (getKey? ws k).isSome = true) :
    (getKey? (processResult result ws) k).isSome = true := by
  rcases result with _ | upd
  · exact h
  · rw [processResult]
    by_cases hu : upd = []
    · rw [if_pos hu]
      exact h
    · rw [if_neg hu]
      exact isSome_getKey?_mergeUpdate ws upd k h

/-- C9 (witness): the key `"a"` survives the merge of an update record
that overwrites `"a"` and adds `"b"`. -/
theorem C9_witness :
    (getKey? [("a", Val.prim (Prim.nat 1))] "a").isSome = true ∧
    (getKey? (processResult
      (some [("a", Val.prim (Prim.nat 3)), ("b", Val.prim (Prim.nat 2))])
      [("a", Val.prim (Prim.nat 1))]) "a").isSome = true :=
  ⟨by decide,
   C9_keys_monotone [("a", Val.prim (Prim.nat 1))]
     (some [("a", Val.prim (Prim.nat 3)), ("b", Val.prim (Prim.nat 2))]) "a"
     (by decide)⟩

theorem getKey?_append_trace (s : GraphState) (n k : String) (hk : k ≠ "trace") :
    getKey? (_append_trace s n) k = getKey? s k := by
  rcases h : getKey? s "trace" with _ | v
  · simp [_append_trace, h, getKey?_setKey_ne _ _ _ _ hk]
  · rcases v with p | d
    · rcases p with s' | n' | b | xs <;>
        simp [_append_trace, h, getKey?_setKey_ne _ _ _ _ hk]
    · simp [_append_trace, h]

/-- C5 (counterexample): running the pipeline on a state carrying a stale
`error` from a prior step, the load-context node executes first and
succeeds (`status` becomes `"context_loaded"`), yet the working state
checkpointed after that step's merge still contains `error = "stale"` —
the merge has no way to clear it. -/
theorem C5_counterexample :
    (graph.ainvoke 10 staleErrorState none).invoked.head? = some "load_context" ∧
    ((graph.ainvoke 10 staleErrorState none).puts.get? 1).map
      (fun st => getKey? st "status") = some (some (Val.s "context_loaded")) ∧
    ((graph.ainvoke 10 staleErrorState none).puts.get? 1).map
      (fun st => getKey? st "error") = some (some (Val.s "stale")) := by
  decide

/-- C5 (amended): the executor's merge only assigns keys present in the
returned record and supports no delete-marker; hence a pre-existing
`error` field survives, with its old value, both the `graph.py`
load-context step (which returns a partial update without `error`) and a
merge of the `nodes` package's `load_context` return value (a full record
from which `error` was popped). -/
theorem C5_error_persists (s : GraphState) (e : Val)
    (h : getKey? s "error" = some e) :
    getKey? (stepState load_context s) "error" = some e ∧
    getKey? (mergeUpdate s (load_context_node s)) "error" = some e := by
  constructor
  · have hstep : stepState load_context s =
        mergeUpdate (_append_trace s "load_context")
          [("status", Val.s "context_loaded"),
           ("context", Val.dict [("loaded", Prim.bool true)])] := rfl
    rw [hstep, getKey?_mergeUpdate_of_none _ _ _ (by decide),
      getKey?_append_trace s _ "error" (by decide), h]
  · rw [show load_context_node s =
        eraseKey (setKey s "status" (Val.s "context_loaded")) "error" from rfl,
      getKey?_mergeUpdate_of_none _ _ _ (getKey?_eraseKey_self _ _), h]

/-- C5 (witness): instantiated at the stale-error initial state. -/
theorem C5_witness :
    getKey? staleErrorState "error" = some (Val.s "stale") ∧
    getKey? (stepState load_context staleErrorState) "error" =
      some (Val.s "stale") :=
  ⟨by decide, (C5_error_persists staleErrorState (Val.s "stale") (by decide)).1⟩

theorem errorWith_spec (s : GraphState) (m : String) :
    getKey? (errorWith s m) "status" = some (Val.s "error") ∧
    getKey? (errorWith s m) "error" = some (Val.s m) ∧
    ∀ k, k ≠ "status" → k ≠ "error" → getKey? (errorWith s m) k = getKey? s k := by
  refine ⟨?_, ?_, ?_⟩
  · rw [errorWith, getKey?_setKey_ne _ _ _ _ (by decide), getKey?_setKey_self]
  · rw [errorWith, getKey?_setKey_self]
  · intro k hks hke
    rw [errorWith, getKey?_setKey_ne _ _ _ _ hke, getKey?_setKey_ne _ _ _ _ hks]

theorem readTargetFiles_notFound (readFile : String → ReadResult)
    (pre : List String) (p : String) (post : List String)
    (hpre : ∀ q ∈ pre, ∃ c, readFile q = .ok c) (hp : readFile p = .notFound) :
    ∀ acc, readTargetFiles readFile (pre ++ p :: post) acc =
      .error ("File not found: " ++ p) := by
  induction pre with
  | nil =>
      intro acc
      simp [readTargetFiles, hp]
  | cons q qs ih =>
      intro acc
      obtain ⟨c, hc⟩ := hpre q (List.mem_cons_self q qs)
      rw [List.cons_append, readTargetFiles, hc]
      exact ih (fun r hr => hpre r (List.mem_cons_of_mem q hr)) _

/-- C6: the execute node's input-validation error paths.  With
`target_files` absent or the empty list, it returns a copy of the state
with `status = "error"` and the exact message
`"No target_files specified; unable to execute issue."`, every other
field unchanged.  With a non-empty `target_files` whose first unreadable
path `p` does not exist (every earlier path reads fine), it returns
`status = "error"` with `error = "File not found: " ++ p`, every other
field unchanged, without looking past `p`. -/
theorem C6_execute_errors (readFile : String → ReadResult)
    (genDiff : Option Val → List (String × String) → Except String String)
    (state : GraphState) :
    ((getKey? state "target_files" = none ∨
      getKey? state "target_files" = some (Val.sl [])) →
      getKey? (execute_issue_node readFile genDiff state) "status" =
        some (Val.s "error") ∧
      getKey? (execute_issue_node readFile genDiff state) "error" =
        some (Val.s "No target_files specified; unable to execute issue.") ∧
      ∀ k, k ≠ "status" → k ≠ "error" →
        getKey? (execute_issue_node readFile genDiff state) k =
          getKey? state k) ∧
    (∀ pre p post,
      getKey? state "target_files" = some (Val.sl (pre ++ p :: post)) →
      (∀ q ∈ pre, ∃ c, readFile q = .ok c) → readFile p = .notFound →
      getKey? (execute_issue_node readFile genDiff state) "status" =
        some (Val.s "error") ∧
      getKey? (execute_issue_node readFile genDiff state) "error" =
        some (Val.s ("File not found: " ++ p)) ∧
      ∀ k, k ≠ "status" → k ≠ "error" →
        getKey? (execute_issue_node readFile genDiff state) k =
          getKey? state k) := by
  constructor
  · intro h
    have hred : execute_issue_node readFile genDiff state =
        errorWith state "No target_files specified; unable to execute issue." := by
      rcases h with h | h <;> simp [execute_issue_node, h, Val.sl, valFalsy]
    rw [hred]
    exact errorWith_spec state _
  · intro pre p post htf hpre hp
    have hread := readTargetFiles_notFound readFile pre p post hpre hp []
    have hne : ((pre ++ p :: post).isEmpty) = false := by
      simp [List.isEmpty_iff]
    have hred : execute_issue_node readFile genDiff state =
        errorWith state ("File not found: " ++ p) := by
      simp [execute_issue_node, htf, Val.sl, valFalsy, hne, hread]
    rw [hred]
    exact errorWith_spec state _

/-- C6 (witness): instantiated at a state with empty `target_files`, and
at a state whose second target file is missing from the filesystem while
an unrelated field `x` is preserved. -/
theorem C6_witness :
    (getKey? [("target_files", Val.sl [])] "target_files" = none ∨
      getKey? [("target_files", Val.sl [])] "target_files" = some (Val.sl [])) ∧
    getKey? (execute_issue_node demoFS demoDiff [("target_files", Val.sl [])])
      "error" =
      some (Val.s "No target_files specified; unable to execute issue.") ∧
    demoFS "missing.txt" = .notFound ∧
    getKey? (execute_issue_node demoFS demoDiff
      [("target_files", Val.sl ["a.txt", "missing.txt", "later.txt"]),
       ("x", Val.prim (Prim.nat 7))]) "error" =
      some (Val.s "File not found: missing.txt") ∧
    getKey? (execute_issue_node demoFS demoDiff
      [("target_files", Val.sl ["a.txt", "missing.txt", "later.txt"]),
       ("x", Val.prim (Prim.nat 7))]) "x" = some (Val.prim (Prim.nat 7)) := by
  have hpre : ∀ q ∈ ["a.txt"], ∃ c, demoFS q = ReadResult.ok c := by
    intro q hq
    simp only [List.mem_singleton] at hq
    refine ⟨"file content", ?_⟩
    rw [hq]
    decide
  have h2 := (C6_execute_errors demoFS demoDiff
      [("target_files", Val.sl ["a.txt", "missing.txt", "later.txt"]),
       ("x", Val.prim (Prim.nat 7))]).2 ["a.txt"] "missing.txt" ["later.txt"]
      (by decide) hpre (by decide)
  refine ⟨Or.inr (by decide), ?_, by decide, ?_, ?_⟩
  · exact ((C6_execute_errors demoFS demoDiff [("target_files", Val.sl [])]).1
      (Or.inr (by decide))).2.1
  · exact h2.2.1
  · exact h2.2.2 "x" (by decide) (by decide)

theorem MemorySaver.get_eq (m : MemorySaver) (h : Heap) (t : String) (ai : Nat)
    (hs : getKey? m._store t = some ai) :
    m.get h t = (some h.data.length, ⟨h.data ++ [h.read ai]⟩) := by
  simp [MemorySaver.get, hs, Heap.alloc]

theorem MemorySaver.getContent_eq (m : MemorySaver) (h : Heap) (t : String)
    (ai : Nat) (hs : getKey? m._store t = some ai) :
    m.getContent h t = some (h.read ai) := by
  rw [MemorySaver.getContent, MemorySaver.get_eq m h t ai hs]
  exact congrArg some (Heap.read_alloc_self h (h.read ai))

/-- C7: value-isolation of `MemorySaver`.  After `put(t, s)` (storing the
object at heap address `a`), `get(t)` returns a snapshot equal in content
to `s` at a fresh address; mutating the caller's object after storage, or
mutating a returned snapshot, never alters what `get` subsequently
returns; and two consecutive `get(t)` calls without an intervening `put`
return two distinct-address copies of equal content. -/
theorem C7_isolation (m : MemorySaver) (h : Heap) (t : String) (a : Nat)
    (ha : a < h.data.length) : IsolationSpec m h t a := by
  have hm1 : (m.put h t a).1 = ⟨setKey m._store t h.data.length⟩ := rfl
  have hh1 : (m.put h t a).2 = ⟨h.data ++ [h.read a]⟩ := rfl
  have hstore : getKey? (m.put h t a).1._store t = some h.data.length := by
    rw [hm1]
    exact getKey?_setKey_self _ _ _
  have hlen1 : (m.put h t a).2.data.length = h.data.length + 1 := by
    rw [hh1]
    simp
  have hread1 : (m.put h t a).2.read h.data.length = h.read a := by
    rw [hh1]
    exact Heap.read_alloc_self h (h.read a)
  have hget : (m.put h t a).1.get (m.put h t a).2 t =
      (some (m.put h t a).2.data.length,
       ⟨(m.put h t a).2.data ++ [(m.put h t a).2.read h.data.length]⟩) :=
    MemorySaver.get_eq _ _ _ _ hstore
  have hna : a ≠ h.data.length := Nat.ne_of_lt ha
  have hlen2 : ((m.put h t a).1.get (m.put h t a).2 t).2.data.length =
      h.data.length + 2 := by
    rw [hget]
    simp [hlen1]
  have hlt : h.data.length < (m.put h t a).2.data.length := by omega
  have hread2 : ((m.put h t a).1.get (m.put h t a).2 t).2.read h.data.length =
      h.read a := by
    rw [hget]
    rw [show (⟨(m.put h t a).2.data ++ [(m.put h t a).2.read h.data.length]⟩ : Heap) =
        ((m.put h t a).2.alloc ((m.put h t a).2.read h.data.length)).1 from rfl,
      Heap.read_alloc_lt (m.put h t a).2 ((m.put h t a).2.read h.data.length)
        h.data.length hlt, hread1]
  simp only [IsolationSpec]
  refine ⟨?_, ?_, ?_, ?_, ?_, ?_⟩
  · rw [MemorySaver.getContent_eq _ _ _ _ hstore, hread1]
  · intro a1 h1
    rw [hget] at h1
    injection h1 with h1
    have ha1 : a1 = h.data.length + 1 := by rw [← h1, hlen1]
    omega
  · intro v
    rw [MemorySaver.getContent_eq _ _ _ _ hstore,
      Heap.read_write_ne (m.put h t a).2 a h.data.length v hna, hread1]
  · intro a1 h1 v
    rw [hget] at h1
    injection h1 with h1
    have ha1 : a1 = h.data.length + 1 := by omega
    rw [MemorySaver.getContent_eq _ _ _ _ hstore,
      Heap.read_write_ne _ _ _ _ (by omega : a1 ≠ h.data.length), hread2]
  · rw [MemorySaver.getContent_eq _ _ _ _ hstore, hread2]
  · intro a1 a2 h1 h2
    rw [hget] at h1
    injection h1 with h1
    rw [MemorySaver.get_eq _ _ _ _ hstore] at h2
    injection h2 with h2
    omega

/-- C7 (witness): instantiated with a one-object heap. -/
theorem C7_witness :
    0 < (Heap.mk [[("a", Val.s "x")]]).data.length ∧
    IsolationSpec ⟨[]⟩ ⟨[[("a", Val.s "x")]]⟩ "t" 0 :=
  ⟨by decide, C7_isolation ⟨[]⟩ ⟨[[("a", Val.s "x")]]⟩ "t" 0 (by decide)⟩

theorem runLoop_missing (nodes : List (String × NodeFn))
    (edges : List (String × String)) (t : String) (fuel : Nat) (current : String)
    (ws : GraphState) (cp : Checkpointer) (inv : List String)
    (puts : List GraphState) (hfuel : 0 < fuel) (hend : current ≠ END)
    (hmiss : getKey? nodes current = none) :
    runLoop nodes edges t fuel current ws cp inv puts =
      ⟨some (.error (.missingNode current)), inv, puts, cp⟩ := by
  cases fuel with
  | zero => exact absurd hfuel (Nat.lt_irrefl 0)
  | succ fuel => simp [runLoop, hend, hmiss]

/-- C8: when the execution loop's current node name is not a key of the
node map (and is not the terminal marker), the loop fails immediately with
the missing-node configuration error (`KeyError` on `self.nodes[current]`
in the source): no further node is invoked, no further checkpoint is put,
and the store is left untouched. -/
theorem C8_missing_node (nodes : List (String × NodeFn))
    (edges : List (String × String)) (t : String) (fuel : Nat) (current : String)
    (ws : GraphState) (cp : Checkpointer) (inv : List String)
    (puts : List GraphState) (hfuel : 0 < fuel) (hend : current ≠ END)
    (hmiss : getKey? nodes current = none) :
    runLoop nodes edges t fuel current ws cp inv puts =
      ⟨some (.error (.missingNode current)), inv, puts, cp⟩ :=
  runLoop_missing nodes edges t fuel current ws cp inv puts hfuel hend hmiss

/-- C8 (witness): a loop positioned at the unregistered name `"ghost"`
raises the missing-node error without invoking anything. -/
theorem C8_witness :
    0 < 1 ∧
    runLoop [] [] "default" 1 "ghost" [] ⟨[]⟩ [] [[]] =
      ⟨some (.error (.missingNode "ghost")), [], [[]], ⟨[]⟩⟩ :=
  ⟨by decide,
   C8_missing_node [] [] "default" 1 "ghost" [] ⟨[]⟩ [] [[]]
     (by decide) (by decide) rfl⟩

/-- C10: `compile` validates nothing beyond the presence of a non-empty
entry point: it succeeds for every builder whose entry point is any
non-empty name — with no condition on the node or edge maps, so the entry
point (or any edge destination) may name no registered node — and such a
dangling entry point makes the run fail with the missing-node error only
when the loop reaches it, before invoking any node. -/
theorem C10_compile_no_validation (b : StateGraph) (cp : Checkpointer)
    (e : String) (he : b._entry_point = some e) (hne : e ≠ "") :
    (∃ g, b.compile cp = .ok g ∧ g.nodes = b._nodes ∧ g.edges = b._edges ∧
      g.entry_point = e) ∧
    (getKey? b._nodes e = none → e ≠ END →
      ∀ fuel s cfg, 0 < fuel → ∀ g, b.compile cp = .ok g →
        (g.ainvoke fuel s cfg).result = some (.error (.missingNode e)) ∧
        (g.ainvoke fuel s cfg).invoked = []) := by
  have hok : b.compile cp = .ok ⟨b._nodes, b._edges, e, cp⟩ := by
    simp [StateGraph.compile, he, hne]
  constructor
  · exact ⟨⟨b._nodes, b._edges, e, cp⟩, hok, rfl, rfl, rfl⟩
  · intro hmiss hnend fuel s cfg hfuel g hg
    rw [hok] at hg
    injection hg with hg
    rw [← hg]
    have hrun := runLoop_missing b._nodes b._edges (threadIdOf cfg) fuel e s
      (Checkpointer.put cp (threadIdOf cfg) s) [] [s] hfuel hnend hmiss
    constructor
    · show (runLoop b._nodes b._edges (threadIdOf cfg) fuel e s
          (Checkpointer.put cp (threadIdOf cfg) s) [] [s]).result = _
      rw [hrun]
    · show (runLoop b._nodes b._edges (threadIdOf cfg) fuel e s
          (Checkpointer.put cp (threadIdOf cfg) s) [] [s]).invoked = _
      rw [hrun]

/-- C10 (witness): a builder with entry point `"ghost"` and no registered
nodes compiles fine, and its run fails at `"ghost"` with nothing
invoked. -/
theorem C10_witness :
    (∃ g, (StateGraph.empty.set_entry_point "ghost").compile ⟨[]⟩ = .ok g ∧
      g.nodes = [] ∧ g.edges = [] ∧ g.entry_point = "ghost") ∧
    (∀ g, (StateGraph.empty.set_entry_point "ghost").compile ⟨[]⟩ = .ok g →
      (g.ainvoke 3 [] none).result = some (.error (.missingNode "ghost")) ∧
      (g.ainvoke 3 [] none).invoked = []) := by
  have h := C10_compile_no_validation (StateGraph.empty.set_entry_point "ghost")
    ⟨[]⟩ "ghost" rfl (by decide)
  exact ⟨h.1, fun g hg => h.2 rfl (by decide) 3 [] none (by decide) g hg⟩
